import Mathlib

/-!
Verification of the command-signing subsystem and cross-chain transfer
orchestrator of the `rust-pact` client library.

The development is a shallow embedding of the relevant Rust source files
(`src/crypto.rs`, `src/utils.rs`, `src/api.rs`, `src/lang.rs`, `src/fetch.rs`,
`src/tools.rs`).  Pure functions are translated into Lean functions; JSON
values are modelled by an inductive `Json` type; Rust panics are modelled by
`Except Err`; the HTTP transport (an external collaborator) is modelled as an
oracle supplying the response of each network call; wall-clock time is
modelled by a discrete clock in which network calls are instantaneous and
each `sleep(interval)` advances the clock by `interval` milliseconds.

External cryptographic primitives (the `blake2`, `hex`, `base64` and
`ed25519-dalek` crates) are not part of this repository; `hex` and `base64`
are implemented faithfully, while `blake2b` and the ed25519 sign/verify pair
are modelled by executable stand-ins that satisfy the primitives' interface
contracts (deterministic 32-byte digest; sign/verify round-trip with
32-byte secret/public keys and 64-byte signatures).
-/

namespace RustPact

/-- Bytes are natural numbers below 256, as produced by the decoders below. -/
abbrev Bytes := List Nat

/-- Rust panics and typed failure causes of the embedded code. -/
inductive Err where
  /-- `hex::decode(..).unwrap()` panicked on a malformed hex string. -/
  | hexPanic : Err
  /-- `SecretKey/PublicKey/Signature::from_bytes(..).unwrap()` panicked. -/
  | keyPanic : Err
  /-- `pull_check_hashs` panicked: sigs for different hashes found. -/
  | hashMismatch : Err
  /-- `sigs[0]` indexing panicked on an empty signature list. -/
  | emptySigs : Err
  /-- `get_api_host` panicked on an unsupported network id. -/
  | unsupportedNetwork : Err
  /-- token address was not of the form `namespace.module`. -/
  | badTokenAddress : Err
deriving DecidableEq, Repr

/-! ## Hex encoding (model of the `hex` crate) -/

/-- Value of a single hex digit, accepting both cases as `hex::decode` does. -/
def hexVal (c : Char) : Option Nat :=
  if '0' ≤ c ∧ c ≤ '9' then some (c.toNat - '0'.toNat)
  else if 'a' ≤ c ∧ c ≤ 'f' then some (c.toNat - 'a'.toNat + 10)
  else if 'A' ≤ c ∧ c ≤ 'F' then some (c.toNat - 'A'.toNat + 10)
  else none

/-- Decode a list of hex characters two at a time; `none` on odd length or
an invalid digit, mirroring `hex::decode`. -/
def hexDecodeList : List Char → Option Bytes
  | [] => some []
  | [_] => none
  | c1 :: c2 :: rest => do
      let h ← hexVal c1
      let l ← hexVal c2
      let r ← hexDecodeList rest
      pure ((h * 16 + l) :: r)

/-- `hex::decode` returning `none` on failure (call sites `.unwrap()` this). -/
def hex_decode (s : String) : Option Bytes :=
  hexDecodeList s.toList

/-- Lower-case hex digit for a value below 16. -/
def hexChar (n : Nat) : Char :=
  if n < 10 then Char.ofNat ('0'.toNat + n) else Char.ofNat ('a'.toNat + n - 10)

/-- Encode bytes as lower-case hex characters, mirroring `hex::encode`. -/
def hexEncodeList : Bytes → List Char
  | [] => []
  | b :: rest => hexChar (b / 16) :: hexChar (b % 16) :: hexEncodeList rest

/-- `hex::encode`. -/
def hex_encode (bs : Bytes) : String :=
  String.mk (hexEncodeList bs)

/-! ## Base64url without padding (model of the `base64` crate's
`URL_SAFE_NO_PAD` engine) -/

/-- Character of the URL-safe base64 alphabet for a value below 64. -/
def b64Char (n : Nat) : Char :=
  if n < 26 then Char.ofNat ('A'.toNat + n)
  else if n < 52 then Char.ofNat ('a'.toNat + n - 26)
  else if n < 62 then Char.ofNat ('0'.toNat + n - 52)
  else if n = 62 then '-' else '_'

/-- Base64url encoding without padding: groups of three bytes become four
characters; a trailing group of one or two bytes becomes two or three. -/
def b64EncodeList : Bytes → List Char
  | [] => []
  | [a] => [b64Char (a / 4), b64Char (a % 4 * 16)]
  | [a, b] => [b64Char (a / 4), b64Char (a % 4 * 16 + b / 16), b64Char (b % 16 * 4)]
  | a :: b :: c :: rest =>
      b64Char (a / 4) :: b64Char (a % 4 * 16 + b / 16) ::
      b64Char (b % 16 * 4 + c / 64) :: b64Char (c % 64) :: b64EncodeList rest

/-- `b64_url_encoded_hash` from `src/crypto.rs`: URL-safe base64 without
padding of a byte string. -/
def b64_url_encoded_hash (bs : Bytes) : String :=
  String.mk (b64EncodeList bs)

/-! ## Blake2b-256 and ed25519 (models of external primitives) -/

/-- The byte sequence of a string, modelling `str::as_bytes`. -/
def strBytes (s : String) : Bytes :=
  s.toList.map Char.toNat

/-- Model of the external `blake2` primitive with `digest_size = 32`: a
deterministic executable function from byte strings to 32-byte digests (the
internal compression function is abstracted). -/
def blake2b256 (bs : Bytes) : Bytes :=
  (List.range 32).map fun i =>
    (bs.foldl (fun acc b => (acc * 33 + b + 7) % 256) (i * 31 + 11)) % 256

/-- `hash_bin` from `src/crypto.rs`: the 32-byte blake2b digest of the
message's bytes. -/
def hash_bin (msg : String) : Bytes :=
  blake2b256 (strBytes msg)

/-- Model of ed25519 public-key derivation: an injective executable map on
32-byte secret keys (the curve arithmetic is abstracted). -/
def pubOfSecret (sk : Bytes) : Bytes :=
  sk.map fun b => 255 - b

/-- Model of `SecretKey::from_bytes`: requires exactly 32 bytes. -/
def secretKeyFromBytes (bs : Bytes) : Option Bytes :=
  if bs.length = 32 then some bs else none

/-- Model of `PublicKey::from_bytes`: requires exactly 32 bytes (point
decompression is abstracted). -/
def pubKeyFromBytes (bs : Bytes) : Option Bytes :=
  if bs.length = 32 then some bs else none

/-- Model of `Signature::from_bytes`: requires exactly 64 bytes. -/
def sigFromBytes (bs : Bytes) : Option Bytes :=
  if bs.length = 64 then some bs else none

/-- Model of `Keypair::sign` applied to a 32-byte message: a 64-byte
signature determined by the secret key and the message, realised as the
derived public key followed by the message. -/
def edSign (sk msg : Bytes) : Bytes :=
  pubOfSecret sk ++ msg

/-- Model of `PublicKey::verify`: the signature checks out exactly when it
was produced by `edSign` with the matching secret key over this message. -/
def edVerify (pk msg sig : Bytes) : Bool :=
  sig == pk ++ msg

/-! ## JSON values (model of `serde_json::Value`)

Floating-point numbers (`f64` gas prices and amounts) are carried opaquely
by the `dec` constructor, which records a decimal literal `m · 10⁻ᵉ`; no
claim computes with them. -/

/-- Model of `serde_json::Value`.  Objects are association lists in
insertion order. -/
inductive Json where
  | null : Json
  | bool (b : Bool) : Json
  | num (n : Int) : Json
  | dec (m : Int) (e : Nat) : Json
  | str (s : String) : Json
  | arr (xs : List Json) : Json
  | obj (fields : List (String × Json)) : Json
deriving Repr, Inhabited

/-- Escape a character for inclusion in a JSON string literal. -/
def escChar (c : Char) : List Char :=
  if c = '"' then ['\\', '"']
  else if c = '\\' then ['\\', '\\'] else [c]

/-- Quote a string as a JSON string literal. -/
def quoteStr (s : String) : String :=
  String.mk ('"' :: (s.toList.foldr (fun c acc => escChar c ++ acc) ['"']))

/-- Comma-join rendered pieces. -/
def joinComma : List String → String
  | [] => ""
  | [x] => x
  | x :: rest => x ++ "," ++ joinComma rest

/-- Render a decimal literal `m · 10⁻ᵉ`. -/
def renderDec (m : Int) (e : Nat) : String :=
  toString m ++ "e-" ++ toString e

mutual

/-- Model of `serde_json::Value::to_string`: render a JSON value to its
canonical wire string. -/
def Json.render : Json → String
  | .null => "null"
  | .bool b => if b then "true" else "false"
  | .num n => toString n
  | .dec m e => renderDec m e
  | .str s => quoteStr s
  | .arr xs => "[" ++ joinComma (renderEach xs) ++ "]"
  | .obj fs => "\x7b" ++ joinComma (renderFields fs) ++ "\x7d"

/-- Render each element of a JSON array. -/
def renderEach : List Json → List String
  | [] => []
  | x :: rest => x.render :: renderEach rest

/-- Render the fields of a JSON object. -/
def renderFields : List (String × Json) → List String
  | [] => []
  | (k, v) :: rest => (quoteStr k ++ ":" ++ v.render) :: renderFields rest

end

/-- Look a key up in an object's field list (first match), modelling
`serde_json::Value::get`. -/
def lookupField : List (String × Json) → String → Option Json
  | [], _ => none
  | (k, v) :: rest, key => if k = key then some v else lookupField rest key

/-- `Value::get` on an object; `none` on non-objects. -/
def Json.getField : Json → String → Option Json
  | .obj fs, key => lookupField fs key
  | _, _ => none

/-- `Value::as_str`. -/
def Json.asStr : Json → Option String
  | .str s => some s
  | _ => none

/-- `Value::as_array`. -/
def Json.asArr : Json → Option (List Json)
  | .arr xs => some xs
  | _ => none

/-- `Value::as_bool`. -/
def Json.asBool : Json → Option Bool
  | .bool b => some b
  | _ => none

/-- `Value::as_u64` (restricted to non-negative integer literals). -/
def Json.asNat : Json → Option Nat
  | .num n => if 0 ≤ n then some n.toNat else none
  | _ => none

/-! ## `src/crypto.rs` -/

/-- `sign` from `src/crypto.rs`: hex-decode the secret key (panicking on bad
hex), build the key pair (panicking when the bytes are not a 32-byte secret
key), and return the base64url hash of the message together with the hex
signature over the 32-byte `hash_bin` digest. -/
def sign (msg secret : String) : Except Err (String × String) := do
  let secretBytes ← match hex_decode secret with
    | some bs => Except.ok bs
    | none => Except.error Err.hexPanic
  let secretKey ← match secretKeyFromBytes secretBytes with
    | some sk => Except.ok sk
    | none => Except.error Err.keyPanic
  let hash := hash_bin msg
  let hashB64 := b64_url_encoded_hash hash
  let sig := edSign secretKey hash
  Except.ok (hashB64, hex_encode sig)

/-- `verify` from `src/crypto.rs`: hex-decode the public key and signature
(panicking on bad hex or wrong lengths) and check the signature over the
32-byte `hash_bin` digest of the message. -/
def verify (msg publicKey signature : String) : Except Err Bool := do
  let publicBytes ← match hex_decode publicKey with
    | some bs => Except.ok bs
    | none => Except.error Err.hexPanic
  let pub ← match pubKeyFromBytes publicBytes with
    | some pk => Except.ok pk
    | none => Except.error Err.keyPanic
  let sigBytes ← match hex_decode signature with
    | some bs => Except.ok bs
    | none => Except.error Err.hexPanic
  let sig ← match sigFromBytes sigBytes with
    | some s => Except.ok s
    | none => Except.error Err.keyPanic
  Except.ok (edVerify pub (hash_bin msg) sig)

/-- A keypair object as consumed by `sign_map`: the JSON fields
`publicKey`/`secretKey` after `get(..).and_then(as_str)`, so `none` stands
for an absent or non-string (e.g. `null`) field. -/
structure KPJson where
  publicKey : Option String
  secretKey : Option String
deriving DecidableEq, Repr

/-- A signature entry as produced by `sign_map`/`attach_sig`.  Each field is
`none` when the JSON key is absent; `sig = some none` is the JSON key
present with value `null`. -/
structure SigEntry where
  hash : Option String
  sig : Option (Option String)
  publicKey : Option String
deriving DecidableEq, Repr

/-- `sign_map` from `src/crypto.rs`: when a string `secretKey` is present
(even the empty string) it signs, otherwise it returns the hash with a
`null` sig. -/
def sign_map (msg : String) (kp : KPJson) : Except Err SigEntry :=
  let hashB64 := b64_url_encoded_hash (hash_bin msg)
  let publicKey := kp.publicKey.getD ""
  match kp.secretKey with
  | some secret => do
      let (_h, sigHex) ← sign msg secret
      Except.ok ⟨some hashB64, some (some sigHex), some publicKey⟩
  | none => Except.ok ⟨some hashB64, some none, some publicKey⟩

/-- Map a fallible function over a list, stopping at the first failure;
this models Rust's `iter().map(..).collect()` where the closure can panic. -/
def mapExcept (f : α → Except Err β) : List α → Except Err (List β)
  | [] => Except.ok []
  | x :: rest => do
      let y ← f x
      let ys ← mapExcept f rest
      Except.ok (y :: ys)

/-- `attach_sig` from `src/crypto.rs`: for an empty keypair array, a single
placeholder entry with a `null` sig (and no `publicKey` key); otherwise one
`sign_map` entry per keypair. -/
def attach_sig (msg : String) (kpArray : List KPJson) : Except Err (List SigEntry) :=
  let hashB64 := b64_url_encoded_hash (hash_bin msg)
  if kpArray.isEmpty then
    Except.ok [⟨some hashB64, some none, none⟩]
  else
    mapExcept (sign_map msg) kpArray

/-! ## `src/utils.rs` -/

/-- `KeyPair` from `src/utils.rs`. -/
structure KeyPair where
  public_key : String
  secret_key : String
  clist : Option (List Json)
deriving Inhabited

/-- `mk_signer` from `src/utils.rs`: a signer object with `pubKey` and, when
a capability list is present, `clist`. -/
def mk_signer (kp : KeyPair) : Json :=
  Json.obj ([("pubKey", Json.str kp.public_key)] ++
    (match kp.clist with
     | some clist => [("clist", Json.arr clist)]
     | none => []))

/-- `pull_sig` from `src/utils.rs`: project the `sig` field, panicking when
the key is absent. -/
def pull_sig (s : SigEntry) : Except Err (Option String) :=
  match s.sig with
  | some sig => Except.ok sig
  | none => Except.error Err.emptySigs

/-- The hash field of an entry as read by `pull_check_hashs`
(`get("hash").and_then(as_str).unwrap_or("")`). -/
def SigEntry.hashStr (s : SigEntry) : String :=
  s.hash.getD ""

/-- `pull_check_hashs` from `src/utils.rs`: read the first entry's hash
(panicking via `sigs[0]` on an empty list) and panic when any entry's hash
differs from it. -/
def pull_check_hashs (sigs : List SigEntry) : Except Err String :=
  match sigs with
  | [] => Except.error Err.emptySigs
  | s0 :: _ =>
      let hsh := s0.hashStr
      if sigs.all fun s => s.hashStr = hsh then Except.ok hsh
      else Except.error Err.hashMismatch

/-! ## `src/api.rs` -/

/-- `filter_sig` from `src/api.rs`: keep entries whose `sig` key is present
(a `null` sig counts as present). -/
def filter_sig (s : SigEntry) : Bool :=
  s.sig.isSome

/-- The signed command wire value `{hash, sigs, cmd}` built by
`mk_single_cmd`; each element of `sigs` is the `{"sig": ...}` object's
value, `none` standing for `null`. -/
structure SignedCmd where
  hash : String
  sigs : List (Option String)
  cmd : String
deriving DecidableEq, Repr

/-- `mk_single_cmd` from `src/api.rs`: check all signature entries agree on
one hash, keep the entries whose `sig` key is present, and pair them with
the command string. -/
def mk_single_cmd (sigs : List SigEntry) (cmd : String) : Except Err SignedCmd := do
  let hash ← pull_check_hashs sigs
  let ss ← mapExcept pull_sig (sigs.filter filter_sig)
  Except.ok ⟨hash, ss, cmd⟩

/-- An `Option<String>` serialized by `serde_json` (`None` becomes `null`). -/
def optStr : Option String → Json
  | some s => Json.str s
  | none => Json.null

/-- The command JSON `prepare_exec_cmd` builds before serializing. -/
def exec_cmd_json (pactCode : String) (envData meta : Json)
    (networkId : Option String) (nonce : Option String)
    (keyPairs : List KeyPair) (now : String) : Json :=
  Json.obj [
    ("networkId", optStr networkId),
    ("payload", Json.obj [("exec", Json.obj [
      ("data", envData),
      ("code", Json.str pactCode)])]),
    ("signers", Json.arr (keyPairs.map mk_signer)),
    ("meta", meta),
    ("nonce", Json.str (nonce.getD now))]

/-- `prepare_exec_cmd` from `src/api.rs`.  `now` models the
`Utc::now().to_rfc3339()` default nonce.  The command JSON is serialized
once; the same string is hashed, signed and stored in the `cmd` field. -/
def prepare_exec_cmd (pactCode : String) (envData meta : Json)
    (networkId : Option String) (nonce : Option String)
    (keyPairs : List KeyPair) (now : String) : Except Err SignedCmd := do
  let cmd := (exec_cmd_json pactCode envData meta networkId nonce keyPairs now).render
  let kpJson := keyPairs.map fun kp => KPJson.mk (some kp.public_key) (some kp.secret_key)
  let sigs ← attach_sig cmd kpJson
  mk_single_cmd sigs cmd

/-- The command JSON `prepare_cont_cmd` builds before serializing. -/
def cont_cmd_json (pactId : String) (rollback : Bool) (step : Nat)
    (proof : Option String) (envData meta : Json)
    (networkId : Option String) (nonce : Option String)
    (keyPairs : List KeyPair) (now : String) : Json :=
  Json.obj [
    ("networkId", optStr networkId),
    ("payload", Json.obj [("cont", Json.obj [
      ("proof", optStr proof),
      ("pactId", Json.str pactId),
      ("rollback", Json.bool rollback),
      ("step", Json.num step),
      ("data", envData)])]),
    ("signers", Json.arr (keyPairs.map mk_signer)),
    ("meta", meta),
    ("nonce", Json.str (nonce.getD now))]

/-- `prepare_cont_cmd` from `src/api.rs`, the continuation analogue of
`prepare_exec_cmd`. -/
def prepare_cont_cmd (pactId : String) (rollback : Bool) (step : Nat)
    (proof : Option String) (envData meta : Json)
    (networkId : Option String) (nonce : Option String)
    (keyPairs : List KeyPair) (now : String) : Except Err SignedCmd := do
  let cmd := (cont_cmd_json pactId rollback step proof envData meta networkId nonce keyPairs now).render
  let kpJson := keyPairs.map fun kp => KPJson.mk (some kp.public_key) (some kp.secret_key)
  let sigs ← attach_sig cmd kpJson
  mk_single_cmd sigs cmd

/-! ## `src/lang.rs` -/

/-- `mk_meta` from `src/lang.rs`.  The `f64` gas price is carried as an
opaque JSON value. -/
def mk_meta (sender chainId : String) (gasPrice : Json) (gasLimit : Nat)
    (creationTime : Nat) (ttl : Nat) : Json :=
  Json.obj [
    ("creationTime", Json.num creationTime),
    ("ttl", Json.num ttl),
    ("gasLimit", Json.num gasLimit),
    ("chainId", Json.str chainId),
    ("gasPrice", gasPrice),
    ("sender", Json.str sender)]

/-- First-character test, modelling Rust's `str::starts_with(char)`. -/
def strHeadIs (s : String) (c : Char) : Bool :=
  match s.toList with
  | [] => false
  | x :: _ => x == c

/-- The rendering `mk_exp` applies to one keyword argument: strings that
start with `(` or `[` are spliced raw, everything else is rendered as JSON. -/
def mkExpArg : Json → String
  | .str s => if strHeadIs s '(' || strHeadIs s '[' then s else Json.render (.str s)
  | v => v.render

/-- `mk_exp` from `src/lang.rs`: build a Pact s-expression from a function
name, optional namespace and keyword arguments. -/
def mk_exp (moduleAndFunction : String) (namesp : Option String)
    (kwargs : List (String × Json)) : String :=
  let start := match namesp with
    | some ns => "(" ++ ns ++ "." ++ moduleAndFunction
    | none => "(" ++ moduleAndFunction ++ " "
  (kwargs.foldl (fun acc kv => acc ++ " " ++ mkExpArg kv.2) start) ++ ")"

/-! ## `src/fetch.rs` (the command-preparation part; the HTTP transport is
an external collaborator and is modelled as an oracle) -/

/-- `value_to_keypair` from `src/fetch.rs`: absent or non-string key fields
default to the empty string. -/
def value_to_keypair (v : Json) : KeyPair where
  public_key := ((v.getField "publicKey").bind Json.asStr).getD ""
  secret_key := ((v.getField "secretKey").bind Json.asStr).getD ""
  clist := (v.getField "clist").bind Json.asArr

/-- `make_prepare_cmd` from `src/fetch.rs`: dispatch a command envelope to
`prepare_cont_cmd` when `type == "cont"`, else to `prepare_exec_cmd`. -/
def make_prepare_cmd (now : String) (cmd : Json) : Except Err SignedCmd :=
  if ((cmd.getField "type").bind Json.asStr) = some "cont" then
    let pactId := ((cmd.getField "pactId").bind Json.asStr).getD ""
    let rollback := ((cmd.getField "rollback").bind Json.asBool).getD false
    let step := ((cmd.getField "step").bind Json.asNat).getD 0
    let proof := (cmd.getField "proof").bind Json.asStr
    let envData := (cmd.getField "envData").getD (Json.obj [])
    let meta := (cmd.getField "meta").getD (Json.obj [])
    let networkId := (cmd.getField "networkId").bind Json.asStr
    let nonce := (cmd.getField "nonce").bind Json.asStr
    let keyPairs := (((cmd.getField "keyPairs").bind Json.asArr).map
      fun arr => arr.map value_to_keypair).getD []
    prepare_cont_cmd pactId rollback step proof envData meta networkId nonce keyPairs now
  else
    let pactCode := ((cmd.getField "pactCode").bind Json.asStr).getD ""
    let envData := (cmd.getField "envData").getD (Json.obj [])
    let meta := (cmd.getField "meta").getD (Json.obj [])
    let networkId := (cmd.getField "networkId").bind Json.asStr
    let nonce := (cmd.getField "nonce").bind Json.asStr
    let keyPairs := (((cmd.getField "keyPairs").bind Json.asArr).map
      fun arr => arr.map value_to_keypair).getD []
    prepare_exec_cmd pactCode envData meta networkId nonce keyPairs now

/-! ## `src/tools.rs` -/

/-- `CrossChainConfig` from `src/tools.rs`. -/
structure CrossChainConfig where
  attempts_tx : Nat
  interval_tx_ms : Nat
  post_confirm_wait_ms : Nat
  attempts_spv : Nat
  interval_spv_ms : Nat
  attempts_final : Nat
  interval_final_ms : Nat
  verbose : Bool
  max_total_time_ms : Nat
deriving Repr

/-- `get_api_host` from `src/tools.rs`: panics on any network id other than
`mainnet01` or `testnet04`. -/
def get_api_host (networkId chainId : String) : Except Err String :=
  if networkId = "mainnet01" then
    Except.ok ("https://api.chainweb.com/chainweb/0.0/mainnet01/chain/" ++ chainId ++ "/pact")
  else if networkId = "testnet04" then
    Except.ok ("https://api.testnet.chainweb.com/chainweb/0.0/testnet04/chain/" ++ chainId ++ "/pact")
  else Except.error Err.unsupportedNetwork

/-- Whether `pat` occurs as a contiguous run inside the second list. -/
def listInfixOf (pat : List Char) : List Char → Bool
  | [] => pat.isEmpty
  | c :: rest => pat.isPrefixOf (c :: rest) || listInfixOf pat rest

/-- Substring containment, modelling Rust's `str::contains(&str)`. -/
def strContains (s pat : String) : Bool :=
  listInfixOf pat.toList s.toList

/-- Character containment, modelling Rust's `str::contains(char)`. -/
def strContainsChar (s : String) (c : Char) : Bool :=
  s.toList.contains c

/-- Emptiness test, modelling Rust's `str::is_empty`. -/
def strIsEmpty (s : String) : Bool :=
  s.toList.isEmpty

/-- Lower-casing, modelling Rust's `str::to_lowercase`. -/
def lowerStr (s : String) : String :=
  String.mk (s.toList.map Char.toLower)

/-- The proof extraction of `poll_create_spv`: the `proof` field as a
string, else the `body` field as a string, else the response itself as a
string. -/
def extract_proof (v : Json) : Option String :=
  ((v.getField "proof").bind Json.asStr) <|>
  ((v.getField "body").bind Json.asStr) <|> v.asStr

/-- The not-ready sentinel test of `poll_create_spv`: the
network-unreachable message, the hash-not-found message, or any message
containing a space character. -/
def spvNotReady (proof : String) : Bool :=
  strContains proof "SPV target not reachable" ||
  strContains proof "Transaction hash not found" ||
  strContainsChar proof ' '

/-- Outcome of the `poll_create_spv` loop; the `attempts` index records how
many SPV fetches were performed. -/
inductive SpvRes where
  | ok (proof : String) (attempts : Nat) : SpvRes
  | errTimeout (attempts : Nat) : SpvRes
  | errMax (attempts : Nat) : SpvRes
  | outOfFuel : SpvRes
deriving DecidableEq, Repr

/-- The retry loop of `poll_create_spv` from `src/tools.rs`.  `resp k` is
the response of the SPV fetch on attempt `k` (attempts are 1-based);
`maxTotalMs` is the env-var timeout read inside the function (0 when the
variable is unset); `elapsed` is the time since the start of this loop,
with instantaneous fetches and `intervalMs` per sleep; `fuel` bounds the
unrolling, `outOfFuel` marking a run that has not returned within `fuel`
iterations. -/
def poll_create_spv_go (resp : Nat → Json) (maxAttempts maxTotalMs intervalMs : Nat) :
    Nat → Nat → Nat → SpvRes
  | 0, _, _ => SpvRes.outOfFuel
  | fuel + 1, attempt, elapsed =>
    let a := attempt + 1
    if maxTotalMs > 0 ∧ elapsed ≥ maxTotalMs then SpvRes.errTimeout a
    else
      match extract_proof (resp a) with
      | some proof =>
        if !spvNotReady proof && !strIsEmpty proof then SpvRes.ok proof a
        else if maxAttempts > 0 ∧ a ≥ maxAttempts then SpvRes.errMax a
        else poll_create_spv_go resp maxAttempts maxTotalMs intervalMs fuel a (elapsed + intervalMs)
      | none =>
        if maxAttempts > 0 ∧ a ≥ maxAttempts then SpvRes.errMax a
        else poll_create_spv_go resp maxAttempts maxTotalMs intervalMs fuel a (elapsed + intervalMs)

/-- Outcome of a polling stage loop inside `crosschain_transfer_full`. -/
inductive LoopRes where
  | found (res : Json) (attempts : Nat) : LoopRes
  | errTimeout (attempts : Nat) : LoopRes
  | errMax (attempts : Nat) : LoopRes
  | outOfFuel : LoopRes

/-- The shared shape of the initiation-confirmation (stage 2) and
final-confirmation (stage 7) retry loops of `crosschain_transfer_full`:
on every iteration first the transfer-wide timeout (`should_timeout`,
measured from the start of the whole transfer) and then, after fetching,
the stage's attempt budget are checked.  `elapsed` is the time since the
transfer started, network calls instantaneous, `intervalMs` per sleep. -/
def pollStageLoop (respAt : Nat → Json) (isDone : Json → Bool)
    (attemptsCfg intervalMs maxTotalMs : Nat) : Nat → Nat → Nat → LoopRes
  | 0, _, _ => LoopRes.outOfFuel
  | fuel + 1, attempt, elapsed =>
    let a := attempt + 1
    if maxTotalMs ≠ 0 ∧ elapsed ≥ maxTotalMs then LoopRes.errTimeout a
    else
      let res := respAt a
      if isDone res then LoopRes.found res a
      else if attemptsCfg > 0 ∧ a ≥ attemptsCfg then LoopRes.errMax a
      else pollStageLoop respAt isDone attemptsCfg intervalMs maxTotalMs fuel a (elapsed + intervalMs)

/-- The `coin.GAS` capability object. -/
def capGas : Json :=
  Json.obj [("name", Json.str "coin.GAS"), ("args", Json.arr [])]

/-- The `{"ks": {"pred": "keys-all", "keys": [pk]}}` environment data. -/
def ksEnvData (receiverPublicKey : String) : Json :=
  Json.obj [("ks", Json.obj [
    ("pred", Json.str "keys-all"),
    ("keys", Json.arr [Json.str receiverPublicKey])])]

/-- A `KeyPair` serialized into a command envelope
(`json!({"publicKey": .., "secretKey": .., "clist": ..})`). -/
def kpToJson (kp : KeyPair) : Json :=
  Json.obj [
    ("publicKey", Json.str kp.public_key),
    ("secretKey", Json.str kp.secret_key),
    ("clist", match kp.clist with
      | some clist => Json.arr clist
      | none => Json.null)]

/-- The `0.0000001` gas price literal, carried opaquely. -/
def gasPrice1e7 : Json := Json.dec 1 7

/-- The Pact code built by `crosschain_transfer`: panics when a non-`coin`
token address does not split into exactly `namespace.module`. -/
def xchainCode (token sender receiver targetChain : String) (amount : Json) :
    Except Err String :=
  let kwargs := [
    ("sender_account", Json.str sender),
    ("receiver_account", Json.str receiver),
    ("receiver_guard", Json.str "(read-keyset \"ks\")"),
    ("target_chain", Json.str targetChain),
    ("amount", amount)]
  if token ≠ "coin" then
    let parts := token.splitOn "."
    if parts.length ≠ 2 then Except.error Err.badTokenAddress
    else Except.ok (mk_exp ((parts.getD 1 "") ++ ".transfer-crosschain")
      (some (parts.getD 0 "")) kwargs)
  else Except.ok (mk_exp "coin.transfer-crosschain" none kwargs)

/-- The command envelope built by `crosschain_transfer` from `src/tools.rs`
(the initiation submission), up to the `fetch::send` call.  `nowSec` models
`SystemTime::now()` in seconds, `nowIso` the rfc3339 nonce. -/
def crosschain_transfer_cmd (token sender receiver receiverPublicKey : String)
    (amount : Json) (kp : KeyPair) (sourceChain targetChain networkId : String)
    (nowSec : Nat) (nowIso : String) : Except Err Json := do
  let _apiHost ← get_api_host networkId sourceChain
  let code ← xchainCode token sender receiver targetChain amount
  let kp := { kp with clist := some [capGas,
    Json.obj [("name", Json.str (token ++ ".TRANSFER_XCHAIN")),
      ("args", Json.arr [Json.str sender, Json.str receiver, amount, Json.str targetChain])]] }
  let meta := mk_meta ("k:" ++ kp.public_key) sourceChain gasPrice1e7 60000 (nowSec - 100) 15000
  Except.ok (Json.obj [
    ("pactCode", Json.str code),
    ("envData", ksEnvData receiverPublicKey),
    ("meta", meta),
    ("networkId", Json.str networkId),
    ("nonce", Json.str nowIso),
    ("keyPairs", Json.arr [kpToJson kp])])

/-- The command envelope built by `crosschain_complete` from
`src/tools.rs` (the continuation submission), up to the `fetch::send`
call: a `cont` command with `step` fixed to 1, `rollback` fixed to false,
and the supplied key pair's capability list replaced by `[coin.GAS]`. -/
def crosschain_complete_cmd (pactId proof _receiver receiverPublicKey : String)
    (_amount : Json) (kp : KeyPair) (targetChain networkId : String)
    (nowSec : Nat) (nowIso : String) : Except Err Json := do
  let _apiHost ← get_api_host networkId targetChain
  let kp := { kp with clist := some [capGas] }
  let meta := mk_meta ("k:" ++ kp.public_key) targetChain gasPrice1e7 60000 (nowSec - 100) 15000
  Except.ok (Json.obj [
    ("type", Json.str "cont"),
    ("pactId", Json.str pactId),
    ("rollback", Json.bool false),
    ("step", Json.num 1),
    ("proof", Json.str proof),
    ("envData", ksEnvData receiverPublicKey),
    ("meta", meta),
    ("networkId", Json.str networkId),
    ("nonce", Json.str nowIso),
    ("keyPairs", Json.arr [kpToJson kp])])

/-- The external HTTP transport (`src/fetch.rs`), modelled as an oracle:
each function returns the parsed response of the corresponding endpoint;
`poll` and `spv` additionally take the 1-based attempt number, so responses
may change between retries. -/
structure Network where
  send : Json → Json
  poll : Json → Nat → Json
  listen : Json → Json
  spv : Json → Nat → Json

/-- The artifact accumulator of `crosschain_transfer_full`, modelling the
mutable `artifacts` JSON object; a `none` field has not been inserted. -/
structure Artifacts where
  status : String := "starting"
  error : Option String := none
  init_result : Option Json := none
  request_key_init : Option String := none
  init_listen_result : Option Json := none
  pact_id : Option String := none
  init_status : Option String := none
  spv_proof : Option String := none
  complete_result : Option Json := none
  request_key_complete : Option String := none
  final_poll_result : Option Json := none
  final_status : Option String := none

/-- Result of running `crosschain_transfer_full`: a Rust panic escaping the
function, fuel exhaustion of a retry loop (the run has not terminated
within the given bound), or normal return of the artifacts object. -/
inductive RunResult where
  | panic (e : Err) : RunResult
  | outOfFuel : RunResult
  | done (a : Artifacts) : RunResult

/-- Extract the first request key of a submission response
(`res.get("requestKeys").and_then(as_array)` then element 0 as a string). -/
def firstRequestKey (res : Json) : Option String :=
  (((res.getField "requestKeys").bind Json.asArr).bind fun arr => arr.get? 0).bind Json.asStr

/-- The stage-2 success test: the poll response has `requestKey.result.status == "success"`. -/
def initTxDone (rk : String) (res : Json) : Bool :=
  ((((res.getField rk).bind fun r => r.getField "result").bind
    fun r => r.getField "status").bind Json.asStr) = some "success"

/-- The stage-8 benign-failure test: the error message, lowercased,
mentions an already-completed pact. -/
def benignFinalError (result : Json) : Bool :=
  let msg := lowerStr (((((result.getField "result").bind fun r => r.getField "error").bind
    fun e => e.getField "message").bind Json.asStr).getD "")
  strContains msg "pact completed" || strContains msg "resumepact"

/-- `crosschain_transfer_full` from `src/tools.rs`: the whole orchestrator.

`net` is the transport oracle; `spvEnvMaxMs` models the
`XCHAIN_MAX_TOTAL_TIME_MS` environment variable that `poll_create_spv`
reads for its own timeout (0 when unset) — note this is a separate clock
from `cfg.max_total_time_ms`, started when SPV polling begins; `nowSec`
and `nowIso` model the wall clock at the start; `fuel` bounds each retry
loop's unrolling.  Time is discrete: network calls are instantaneous and
each sleep advances the clock by the stage's interval (the
`post_confirm_wait_ms` sleep advances it likewise). -/
def crosschain_transfer_full (net : Network)
    (token sender receiver receiverPublicKey : String) (amount : Json)
    (kp : KeyPair) (sourceChain targetChain networkId : String)
    (cfg : CrossChainConfig) (spvEnvMaxMs : Nat)
    (nowSec : Nat) (nowIso : String) (fuel : Nat) : RunResult :=
  match crosschain_transfer_cmd token sender receiver receiverPublicKey amount kp
      sourceChain targetChain networkId nowSec nowIso with
  | Except.error e => RunResult.panic e
  | Except.ok initEnvelope =>
    -- fetch::send first runs make_prepare_cmd (command signing) and then posts
    match make_prepare_cmd nowIso initEnvelope with
    | Except.error e => RunResult.panic e
    | Except.ok _ =>
      let initRes := net.send initEnvelope
      let a0 : Artifacts := { init_result := some initRes }
      match firstRequestKey initRes with
      | none => RunResult.done { a0 with error := some "missing request key from initiation" }
      | some rk =>
        let a1 := { a0 with request_key_init := some rk }
        let pollReq := Json.obj [("requestKeys", Json.arr [Json.str rk])]
        match pollStageLoop (fun k => net.poll pollReq k) (initTxDone rk)
            cfg.attempts_tx cfg.interval_tx_ms cfg.max_total_time_ms fuel 0 0 with
        | LoopRes.outOfFuel => RunResult.outOfFuel
        | LoopRes.errTimeout _ =>
            RunResult.done { a1 with error := some "timeout waiting for initiation tx" }
        | LoopRes.errMax _ =>
            RunResult.done { a1 with error := some "max attempts reached waiting for initiation tx" }
        | LoopRes.found _ k1 =>
          let e1 := (k1 - 1) * cfg.interval_tx_ms
          let listenRes := net.listen (Json.obj [("listen", Json.str rk)])
          let a2 := { a1 with init_listen_result := some listenRes }
          match (((listenRes.getField "continuation").bind
              fun c => c.getField "pactId").bind Json.asStr) with
          | none => RunResult.done { a2 with error := some "missing pactId in init listen result" }
          | some pactId =>
            let a3 := { a2 with pact_id := some pactId }
            match (((listenRes.getField "result").bind
                fun r => r.getField "status").bind Json.asStr) with
            | none => RunResult.done { a3 with error := some "missing status in init listen result" }
            | some status =>
              let a4 := { a3 with init_status := some status }
              let e2 := e1 + cfg.post_confirm_wait_ms
              let spvCmd := Json.obj [("requestKey", Json.str rk),
                ("targetChainId", Json.str targetChain)]
              -- cfg.attempts_spv is passed as Some(..) when positive, None otherwise,
              -- and poll_create_spv unwraps None back to 0, so the budget is unchanged
              match poll_create_spv_go (fun k => net.spv spvCmd k)
                  cfg.attempts_spv spvEnvMaxMs cfg.interval_spv_ms fuel 0 0 with
              | SpvRes.outOfFuel => RunResult.outOfFuel
              | SpvRes.errTimeout _ =>
                  RunResult.done { a4 with error := some "timeout obtaining SPV proof" }
              | SpvRes.errMax _ =>
                  RunResult.done { a4 with error := some "max attempts reached waiting for SPV proof" }
              | SpvRes.ok proof k2 =>
                let a5 := { a4 with spv_proof := some proof }
                let e3 := e2 + (k2 - 1) * cfg.interval_spv_ms
                match crosschain_complete_cmd pactId proof receiver receiverPublicKey
                    amount kp targetChain networkId nowSec nowIso with
                | Except.error e => RunResult.panic e
                | Except.ok contEnvelope =>
                  match make_prepare_cmd nowIso contEnvelope with
                  | Except.error e => RunResult.panic e
                  | Except.ok _ =>
                    let completeRes := net.send contEnvelope
                    let a6 := { a5 with complete_result := some completeRes }
                    match firstRequestKey completeRes with
                    | none => RunResult.done
                        { a6 with error := some "missing request key from completion step" }
                    | some rkComplete =>
                      let a7 := { a6 with request_key_complete := some rkComplete }
                      let finalReq := Json.obj [("requestKeys", Json.arr [Json.str rkComplete])]
                      match pollStageLoop (fun k => net.poll finalReq k)
                          (fun res => (res.getField rkComplete).isSome)
                          cfg.attempts_final cfg.interval_final_ms cfg.max_total_time_ms
                          fuel 0 e3 with
                      | LoopRes.outOfFuel => RunResult.outOfFuel
                      | LoopRes.errTimeout _ => RunResult.done
                          { a7 with error := some "timeout waiting for final completion" }
                      | LoopRes.errMax _ => RunResult.done
                          { a7 with error := some "max attempts reached waiting for final completion" }
                      | LoopRes.found finalPollRes _ =>
                        match finalPollRes.getField rkComplete with
                        | none => RunResult.done { a7 with
                            error := some "final transaction result not found in poll response" }
                        | some result =>
                          let finalStatus := (((result.getField "result").bind
                            fun r => r.getField "status").bind Json.asStr)
                          if finalStatus ≠ some "success" ∧ benignFinalError result = false then
                            RunResult.done { a7 with
                              error := some "final transaction failed with non-success status" }
                          else
                            RunResult.done { a7 with
                              final_poll_result := some finalPollRes,
                              final_status := some "success",
                              status := "success" }

/-! ## Basic lemmas about the byte-level codecs -/

theorem hexVal_lt {c : Char} {n : Nat} (h : hexVal c = some n) : n < 16 := by
  unfold hexVal at h
  have e1 : Char.toNat '0' = 48 := rfl
  have e2 : Char.toNat 'a' = 97 := rfl
  have e3 : Char.toNat 'A' = 65 := rfl
  split at h
  · next hc =>
    have h9 : c.toNat ≤ 57 := by simpa [Char.toNat] using Char.le_def.mp hc.2
    simp only [Option.some.injEq] at h
    omega
  · split at h
    · next hc =>
      have h9 : c.toNat ≤ 102 := by simpa [Char.toNat] using Char.le_def.mp hc.2
      simp only [Option.some.injEq] at h
      omega
    · split at h
      · next hc =>
        have h9 : c.toNat ≤ 70 := by simpa [Char.toNat] using Char.le_def.mp hc.2
        simp only [Option.some.injEq] at h
        omega
      · exact absurd h (by simp)

theorem hexVal_hexChar (n : Nat) (h : n < 16) : hexVal (hexChar n) = some n := by
  interval_cases n <;> decide

/-- Decoding inverts encoding on genuine byte lists. -/
theorem hexDecodeList_hexEncodeList (bs : Bytes) (h : ∀ b ∈ bs, b < 256) :
    hexDecodeList (hexEncodeList bs) = some bs := by
  induction bs with
  | nil => rfl
  | cons b rest ih =>
    have hb : b < 256 := h b (List.mem_cons_self _ _)
    have h1 : b / 16 < 16 := by omega
    have h2 : b % 16 < 16 := by omega
    simp only [hexEncodeList, hexDecodeList, hexVal_hexChar _ h1, hexVal_hexChar _ h2,
      ih fun x hx => h x (List.mem_cons_of_mem _ hx), Option.bind_eq_bind,
      Option.some_bind, Option.pure_def, Option.some.injEq, List.cons.injEq, and_true]
    omega

/-- Every byte produced by the hex decoder is below 256. -/
theorem hexDecodeList_lt {cs : List Char} {bs : Bytes} (h : hexDecodeList cs = some bs) :
    ∀ b ∈ bs, b < 256 := by
  induction cs using hexDecodeList.induct generalizing bs with
  | case1 =>
    simp only [hexDecodeList, Option.some.injEq] at h
    subst h; intro b hb; cases hb
  | case2 c => simp [hexDecodeList] at h
  | case3 c1 c2 rest ih =>
    simp only [hexDecodeList, Option.bind_eq_bind, bind, Option.bind] at h
    cases h1 : hexVal c1 with
    | none => rw [h1] at h; cases h
    | some hv =>
      rw [h1] at h
      cases h2 : hexVal c2 with
      | none => rw [h2] at h; cases h
      | some lv =>
        rw [h2] at h
        cases h3 : hexDecodeList rest with
        | none => rw [h3] at h; cases h
        | some r =>
          rw [h3] at h
          simp only [Option.pure_def, Option.some.injEq] at h
          subst h
          intro b hb
          rcases List.mem_cons.mp hb with hb | hb
          · have := hexVal_lt h1
            have := hexVal_lt h2
            omega
          · exact ih h3 b hb

theorem hex_decode_hex_encode (bs : Bytes) (h : ∀ b ∈ bs, b < 256) :
    hex_decode (hex_encode bs) = some bs :=
  hexDecodeList_hexEncodeList bs h

theorem blake2b256_length (bs : Bytes) : (blake2b256 bs).length = 32 := by
  simp [blake2b256]

theorem blake2b256_lt (bs : Bytes) : ∀ b ∈ blake2b256 bs, b < 256 := by
  intro b hb
  simp only [blake2b256, List.mem_map] at hb
  obtain ⟨i, _, hi⟩ := hb
  omega

theorem hash_bin_length (msg : String) : (hash_bin msg).length = 32 :=
  blake2b256_length _

theorem pubOfSecret_length (sk : Bytes) : (pubOfSecret sk).length = sk.length := by
  simp [pubOfSecret]

theorem pubOfSecret_lt (sk : Bytes) : ∀ b ∈ pubOfSecret sk, b < 256 := by
  intro b hb
  simp only [pubOfSecret, List.mem_map] at hb
  obtain ⟨x, _, hx⟩ := hb
  omega

theorem edSign_length (sk : Bytes) (hsk : sk.length = 32) (msg : Bytes)
    (hm : msg.length = 32) : (edSign sk msg).length = 64 := by
  simp [edSign, pubOfSecret_length, hsk, hm]

theorem edSign_lt (sk msg : Bytes) (hm : ∀ b ∈ msg, b < 256) :
    ∀ b ∈ edSign sk msg, b < 256 := by
  intro b hb
  rcases List.mem_append.mp hb with hb | hb
  · exact pubOfSecret_lt sk b hb
  · exact hm b hb

/-! ## Lemmas about the signing subsystem -/

/-- A secret-key hex string that `sign` accepts: valid hex of 32 bytes. -/
def ValidSecret (s : String) : Bool :=
  match hex_decode s with
  | some bs => bs.length == 32
  | none => false

/-- A keypair object `sign_map` handles without panicking: secret key
absent, or present and valid. -/
def secretOk (kp : KPJson) : Bool :=
  match kp.secretKey with
  | none => true
  | some s => ValidSecret s

@[simp] theorem ok_bind (a : α) (f : α → Except Err β) :
    (Except.ok a >>= f : Except Err β) = f a := rfl

@[simp] theorem error_bind (e : Err) (f : α → Except Err β) :
    (Except.error e >>= f : Except Err β) = Except.error e := rfl

theorem sign_eq {s : String} {sb : Bytes} (hdec : hex_decode s = some sb)
    (hlen : sb.length = 32) (msg : String) :
    sign msg s = Except.ok
      (b64_url_encoded_hash (hash_bin msg), hex_encode (edSign sb (hash_bin msg))) := by
  simp [sign, hdec, secretKeyFromBytes, hlen]

/-- `verify` round-trips with the signature `sign` produced, for a public
key that corresponds to the secret key. -/
theorem verify_edSign {sb : Bytes} (hlen : sb.length = 32) {pkHex : String}
    (hpk : hex_decode pkHex = some (pubOfSecret sb)) (msg : String) :
    verify msg pkHex (hex_encode (edSign sb (hash_bin msg))) = Except.ok true := by
  have hsiglt : ∀ b ∈ edSign sb (hash_bin msg), b < 256 :=
    edSign_lt sb (hash_bin msg) (blake2b256_lt _)
  have hround : hex_decode (hex_encode (edSign sb (hash_bin msg)))
      = some (edSign sb (hash_bin msg)) :=
    hex_decode_hex_encode _ hsiglt
  have hsiglen : (edSign sb (hash_bin msg)).length = 64 :=
    edSign_length sb hlen (hash_bin msg) (hash_bin_length msg)
  have hpublen : (pubOfSecret sb).length = 32 := by
    rw [pubOfSecret_length, hlen]
  have hround2 : hex_decode (hex_encode (pubOfSecret sb ++ hash_bin msg))
      = some (pubOfSecret sb ++ hash_bin msg) := by
    simpa [edSign] using hround
  have hlen2 : (pubOfSecret sb ++ hash_bin msg).length = 64 := by
    simpa [edSign] using hsiglen
  simp [verify, hpk, pubKeyFromBytes, hpublen, hround2, sigFromBytes, hlen2,
    edVerify, edSign]

/-- The entry `sign_map` returns when it does not panic. -/
def signEntryOk (msg : String) (kp : KPJson) : SigEntry :=
  let hashB64 := b64_url_encoded_hash (hash_bin msg)
  let publicKey := kp.publicKey.getD ""
  match kp.secretKey with
  | none => ⟨some hashB64, some none, some publicKey⟩
  | some s => ⟨some hashB64,
      some (some (hex_encode (edSign ((hex_decode s).getD []) (hash_bin msg)))),
      some publicKey⟩

theorem sign_map_ok {kp : KPJson} (h : secretOk kp = true) (msg : String) :
    sign_map msg kp = Except.ok (signEntryOk msg kp) := by
  obtain ⟨pk, sk⟩ := kp
  cases sk with
  | none => rfl
  | some s =>
    simp only [secretOk, ValidSecret] at h
    cases hdec : hex_decode s with
    | none => rw [hdec] at h; cases h
    | some sb =>
      rw [hdec] at h
      have hlen : sb.length = 32 := by simpa using h
      simp [sign_map, signEntryOk, sign_eq hdec hlen msg, hdec]

/-- Shape of any entry `sign_map` can return: it always carries the
message hash and a present `sig` key. -/
theorem sign_map_shape {msg : String} {kp : KPJson} {e : SigEntry}
    (h : sign_map msg kp = Except.ok e) :
    e.hash = some (b64_url_encoded_hash (hash_bin msg)) ∧ e.sig.isSome = true := by
  obtain ⟨pk, sk⟩ := kp
  cases sk with
  | none =>
    simp only [sign_map, Except.ok.injEq] at h
    subst h
    exact ⟨rfl, rfl⟩
  | some s =>
    simp only [sign_map] at h
    cases hs : sign msg s with
    | error e' => rw [hs] at h; simp at h
    | ok pr =>
      rw [hs] at h
      simp only [ok_bind, Except.ok.injEq] at h
      subst h
      exact ⟨rfl, rfl⟩

theorem mapExcept_ok_of_all {f : α → Except Err β} {g : α → β}
    (hf : ∀ x ∈ xs, f x = Except.ok (g x)) :
    mapExcept f xs = Except.ok (xs.map g) := by
  induction xs with
  | nil => rfl
  | cons x rest ih =>
    have hx := hf x (List.mem_cons_self _ _)
    have hrest := ih fun y hy => hf y (List.mem_cons_of_mem _ hy)
    simp only [mapExcept]
    rw [hx, hrest]
    rfl

/-- Every list a `mapExcept` run returns is the pointwise image of its
input: same length, and each output comes from the matching input. -/
theorem mapExcept_ok_inv {f : α → Except Err β} :
    ∀ {xs : List α} {ys : List β}, mapExcept f xs = Except.ok ys →
    ys.length = xs.length ∧ ∀ y ∈ ys, ∃ x ∈ xs, f x = Except.ok y := by
  intro xs
  induction xs with
  | nil =>
    intro ys h
    simp only [mapExcept, Except.ok.injEq] at h
    subst h
    exact ⟨rfl, by simp⟩
  | cons x rest ih =>
    intro ys h
    simp only [mapExcept] at h
    cases hx : f x with
    | error e => rw [hx] at h; simp at h
    | ok y =>
      rw [hx] at h
      cases hrest : mapExcept f rest with
      | error e => rw [hrest] at h; simp at h
      | ok ys' =>
        rw [hrest] at h
        simp only [ok_bind, Except.ok.injEq] at h
        subst h
        obtain ⟨hlen, hmem⟩ := ih hrest
        refine ⟨by simp [hlen], ?_⟩
        intro z hz
        rcases List.mem_cons.mp hz with hz | hz
        · exact ⟨x, List.mem_cons_self _ _, hz ▸ hx⟩
        · obtain ⟨w, hw, hfw⟩ := hmem z hz
          exact ⟨w, List.mem_cons_of_mem _ hw, hfw⟩

/-- Whenever `attach_sig` returns, the entry list is non-empty and every
entry carries the message hash and a present `sig` key. -/
theorem attach_sig_shape {msg : String} {kps : List KPJson} {es : List SigEntry}
    (h : attach_sig msg kps = Except.ok es) :
    es ≠ [] ∧ ∀ e ∈ es,
      e.hash = some (b64_url_encoded_hash (hash_bin msg)) ∧ e.sig.isSome = true := by
  unfold attach_sig at h
  split at h
  · next hemp =>
    simp only [Except.ok.injEq] at h
    subst h
    refine ⟨by simp, ?_⟩
    intro e he
    rcases List.mem_singleton.mp he with rfl
    exact ⟨rfl, rfl⟩
  · next hemp =>
    obtain ⟨hlen, hmem⟩ := mapExcept_ok_inv h
    refine ⟨?_, ?_⟩
    · intro hnil
      subst hnil
      simp only [List.length_nil] at hlen
      exact hemp (List.isEmpty_iff.mpr (List.length_eq_zero.mp hlen.symm))
    · intro e he
      obtain ⟨kp, _, hkp⟩ := hmem e he
      exact sign_map_shape hkp

theorem attach_sig_all_valid {msg : String} {kps : List KPJson}
    (hne : kps ≠ []) (hok : ∀ kp ∈ kps, secretOk kp = true) :
    attach_sig msg kps = Except.ok (kps.map (signEntryOk msg)) := by
  unfold attach_sig
  rw [if_neg (by simpa using hne)]
  exact mapExcept_ok_of_all fun kp hkp => sign_map_ok (hok kp hkp) msg

theorem pull_sig_ok {e : SigEntry} (h : filter_sig e = true) :
    pull_sig e = Except.ok (e.sig.getD none) := by
  unfold filter_sig at h
  unfold pull_sig
  cases hs : e.sig with
  | none => rw [hs] at h; cases h
  | some v => simp [hs]

theorem pull_check_hashs_const {es : List SigEntry} {h : String}
    (hne : es ≠ []) (hall : ∀ e ∈ es, e.hash = some h) :
    pull_check_hashs es = Except.ok h := by
  cases es with
  | nil => exact absurd rfl hne
  | cons e0 rest =>
    have h0 : e0.hashStr = h := by
      unfold SigEntry.hashStr
      rw [hall e0 (List.mem_cons_self _ _)]
      rfl
    have hs : ∀ e ∈ e0 :: rest, e.hashStr = e0.hashStr := by
      intro e he
      have he1 : e.hashStr = h := by
        unfold SigEntry.hashStr
        rw [hall e he]
        rfl
      rw [he1, h0]
    simp only [pull_check_hashs]
    rw [if_pos (List.all_eq_true.mpr fun e he => decide_eq_true (hs e he))]
    rw [h0]

/-- `mk_single_cmd` over entries that agree on a hash and all carry a `sig`
key returns the command paired with that hash and the projected sigs. -/
theorem mk_single_cmd_ok {es : List SigEntry} {h : String}
    (hne : es ≠ []) (hall : ∀ e ∈ es, e.hash = some h)
    (cmd : String) :
    mk_single_cmd es cmd =
      Except.ok ⟨h, (es.filter filter_sig).map fun e => e.sig.getD none, cmd⟩ := by
  unfold mk_single_cmd
  rw [pull_check_hashs_const hne hall]
  rw [mapExcept_ok_of_all fun e he => pull_sig_ok (List.of_mem_filter he)]
  rfl

theorem attach_sig_nil (msg : String) :
    attach_sig msg [] =
      Except.ok [⟨some (b64_url_encoded_hash (hash_bin msg)), some none, none⟩] := rfl

theorem mk_single_cmd_placeholder (hsh cmd : String) :
    mk_single_cmd [⟨some hsh, some none, none⟩] cmd = Except.ok ⟨hsh, [none], cmd⟩ := by
  have hall : ∀ e ∈ [(⟨some hsh, some none, none⟩ : SigEntry)], e.hash = some hsh := by
    intro e he
    rcases List.mem_singleton.mp he with rfl
    rfl
  simpa using mk_single_cmd_ok (by simp) hall cmd

theorem pull_check_hashs_mismatch {sigs : List SigEntry} {a b : SigEntry}
    (ha : a ∈ sigs) (hb : b ∈ sigs) {ha2 hb2 : String}
    (hha : a.hash = some ha2) (hhb : b.hash = some hb2) (hne : ha2 ≠ hb2) :
    pull_check_hashs sigs = Except.error Err.hashMismatch := by
  cases sigs with
  | nil => cases ha
  | cons s0 rest =>
    have hastr : a.hashStr = ha2 := by unfold SigEntry.hashStr; rw [hha]; rfl
    have hbstr : b.hashStr = hb2 := by unfold SigEntry.hashStr; rw [hhb]; rfl
    simp only [pull_check_hashs]
    rw [if_neg]
    intro hall
    have h1 := of_decide_eq_true (List.all_eq_true.mp hall a ha)
    have h2 := of_decide_eq_true (List.all_eq_true.mp hall b hb)
    exact hne (by rw [← hastr, h1, ← h2, hbstr])

/-! ## Claims -/

/-- C2: for an empty list of keypairs, `attach_sig` returns exactly one
entry whose sig is `null` together with the computed hash of the command
string; `mk_single_cmd` preserves that placeholder entry (its `sig` key is
present, so `filter_sig` keeps it); and a command prepared with zero
keypairs carries exactly one `{"sig": null}` signature. -/
theorem claim_C2 (msg cmd pactCode : String) (envData meta : Json)
    (networkId nonce : Option String) (now : String) :
    attach_sig msg [] =
      Except.ok [⟨some (b64_url_encoded_hash (hash_bin msg)), some none, none⟩] ∧
    mk_single_cmd [⟨some (b64_url_encoded_hash (hash_bin msg)), some none, none⟩] cmd
      = Except.ok ⟨b64_url_encoded_hash (hash_bin msg), [none], cmd⟩ ∧
    Except.map SignedCmd.sigs (prepare_exec_cmd pactCode envData meta networkId nonce [] now)
      = Except.ok [none] := by
  refine ⟨attach_sig_nil msg, mk_single_cmd_placeholder _ cmd, ?_⟩
  simp [prepare_exec_cmd, attach_sig_nil, mk_single_cmd_placeholder, Except.map]

/-- Witness for C2 at concrete inputs. -/
theorem claim_C2_witness :
    attach_sig "m" [] =
      Except.ok [⟨some (b64_url_encoded_hash (hash_bin "m")), some none, none⟩] ∧
    mk_single_cmd [⟨some (b64_url_encoded_hash (hash_bin "m")), some none, none⟩] "c"
      = Except.ok ⟨b64_url_encoded_hash (hash_bin "m"), [none], "c"⟩ ∧
    Except.map SignedCmd.sigs
      (prepare_exec_cmd "(+ 1 2)" (Json.obj []) (Json.obj []) none none [] "t")
      = Except.ok [none] :=
  claim_C2 "m" "c" "(+ 1 2)" (Json.obj []) (Json.obj []) none none "t"

/-- C4: for every signature batch containing two entries whose hash fields
differ, `mk_single_cmd` (via `pull_check_hashs`) fails with the
hash-mismatch panic: no command value is produced and the mismatched
signature is not silently dropped. -/
theorem claim_C4 (sigs : List SigEntry) (cmd : String) (a b : SigEntry)
    (ha : a ∈ sigs) (hb : b ∈ sigs) {ha2 hb2 : String}
    (hha : a.hash = some ha2) (hhb : b.hash = some hb2) (hne : ha2 ≠ hb2) :
    mk_single_cmd sigs cmd = Except.error Err.hashMismatch := by
  unfold mk_single_cmd
  rw [pull_check_hashs_mismatch ha hb hha hhb hne]
  rfl

/-- Witness for C4 at a concrete two-entry batch over different hashes. -/
theorem claim_C4_witness :
    mk_single_cmd [⟨some "h1", some none, none⟩, ⟨some "h2", some none, none⟩] "cmd"
      = Except.error Err.hashMismatch :=
  claim_C4 _ "cmd" ⟨some "h1", some none, none⟩ ⟨some "h2", some none, none⟩
    (by simp) (by simp) rfl rfl (by decide)

/-- C9 counterexample: the claim says a keypair whose secret key is present
but equal to the empty string yields a silent unsigned (`sig = null`)
entry; on the code, `sign_map` takes the signing branch for any present
string secret, and `SecretKey::from_bytes` panics on the zero-length key,
so no entry is produced at all. -/
theorem claim_C9_counterexample :
    sign_map "msg" ⟨some "aa00", some ""⟩ = Except.error Err.keyPanic := rfl

/-- C9 (amended): the silent unsigned entry (carrying the computed hash and
the public key) is produced exactly when the `secretKey` field is absent or
not a string (e.g. `null`); a keypair with `secretKey` present but equal to
the empty string instead makes the signing helper panic while building the
ed25519 secret key. -/
theorem claim_C9 (msg : String) (pk : Option String) :
    sign_map msg ⟨pk, none⟩ = Except.ok
      ⟨some (b64_url_encoded_hash (hash_bin msg)), some none, some (pk.getD "")⟩ ∧
    sign_map msg ⟨pk, some ""⟩ = Except.error Err.keyPanic :=
  ⟨rfl, rfl⟩

/-- Witness for C9 at concrete inputs. -/
theorem claim_C9_witness :
    sign_map "m" ⟨some "pk", none⟩ = Except.ok
      ⟨some (b64_url_encoded_hash (hash_bin "m")), some none, some "pk"⟩ ∧
    sign_map "m" ⟨some "pk", some ""⟩ = Except.error Err.keyPanic :=
  claim_C9 "m" (some "pk")

/-- C1 counterexample: the claim promises one signature entry per keypair
for every non-empty keypair list, but a list containing a keypair whose
present secret key is not a valid 32-byte hex key (here the empty string)
makes `attach_sig` panic inside `sign`, so no entries are returned. -/
theorem claim_C1_counterexample :
    attach_sig "msg" [⟨some "aa00", some ""⟩] = Except.error Err.keyPanic := rfl

/-- C1 (amended): for every non-empty list of keypairs in which each
keypair's secret key is absent or a valid 32-byte hex secret key,
`attach_sig` returns exactly one signature entry per keypair (the pointwise
`sign_map` image, of the same length as the input); and for every keypair
whose secret key is valid and whose public key corresponds to that secret
key, the keypair's entry carries a signature that `verify` accepts for that
public key over the same message whose hash the entry carries. -/
theorem claim_C1 (msg : String) (kps : List KPJson) (hne : kps ≠ [])
    (hok : ∀ kp ∈ kps, secretOk kp = true) :
    attach_sig msg kps = Except.ok (kps.map (signEntryOk msg)) ∧
    (kps.map (signEntryOk msg)).length = kps.length ∧
    ∀ kp ∈ kps, ∀ s sb pkHex, kp.secretKey = some s → hex_decode s = some sb →
      kp.publicKey = some pkHex → hex_decode pkHex = some (pubOfSecret sb) →
      (signEntryOk msg kp).hash = some (b64_url_encoded_hash (hash_bin msg)) ∧
      (signEntryOk msg kp).sig = some (some (hex_encode (edSign sb (hash_bin msg)))) ∧
      verify msg pkHex (hex_encode (edSign sb (hash_bin msg))) = Except.ok true := by
  refine ⟨attach_sig_all_valid hne hok, List.length_map _ _, ?_⟩
  intro kp hkp s sb pkHex hsk hdec hpk hpkdec
  have hsec := hok kp hkp
  simp only [secretOk, hsk, ValidSecret, hdec, beq_iff_eq] at hsec
  refine ⟨?_, ?_, verify_edSign hsec hpkdec msg⟩
  · simp [signEntryOk, hsk]
  · simp [signEntryOk, hsk, hdec]

/-- Witness for C1 at the all-zero 32-byte secret key and its
corresponding public key. -/
theorem claim_C1_witness :
    attach_sig "m" [⟨some "ffffffffffffffffffffffffffffffffffffffffffffffffffffffffffffffff",
        some "0000000000000000000000000000000000000000000000000000000000000000"⟩]
      = Except.ok ([⟨some "ffffffffffffffffffffffffffffffffffffffffffffffffffffffffffffffff",
        some "0000000000000000000000000000000000000000000000000000000000000000"⟩].map
          (signEntryOk "m")) ∧
    verify "m" "ffffffffffffffffffffffffffffffffffffffffffffffffffffffffffffffff"
      (hex_encode (edSign (List.replicate 32 0) (hash_bin "m"))) = Except.ok true := by
  have h := claim_C1 "m"
    [⟨some "ffffffffffffffffffffffffffffffffffffffffffffffffffffffffffffffff",
      some "0000000000000000000000000000000000000000000000000000000000000000"⟩]
    (by decide) (by decide)
  refine ⟨h.1, ?_⟩
  exact (h.2.2 ⟨some "ffffffffffffffffffffffffffffffffffffffffffffffffffffffffffffffff",
      some "0000000000000000000000000000000000000000000000000000000000000000"⟩
    (by simp)
    "0000000000000000000000000000000000000000000000000000000000000000"
    (List.replicate 32 0)
    "ffffffffffffffffffffffffffffffffffffffffffffffffffffffffffffffff"
    rfl (by decide) rfl (by decide)).2.2

/-- The property C3 asserts of every command-preparation output: the `hash`
field is the base64url (no padding) encoding of the 32-byte blake2b digest
of the exact string stored in the `cmd` field.  Runs that panic have no
output. -/
def hashMatchesCmd : Except Err SignedCmd → Prop
  | Except.ok out => out.hash = b64_url_encoded_hash (hash_bin out.cmd)
  | Except.error _ => True

theorem hashMatchesCmd_pipeline (msg : String) (kps : List KPJson) :
    hashMatchesCmd (attach_sig msg kps >>= fun sigs => mk_single_cmd sigs msg) := by
  cases hs : attach_sig msg kps with
  | error e => rw [error_bind]; trivial
  | ok es =>
    obtain ⟨hne, hall⟩ := attach_sig_shape hs
    rw [ok_bind, mk_single_cmd_ok hne (fun e he => (hall e he).1) msg]
    rfl

/-- C3: for every output of `prepare_exec_cmd` and `prepare_cont_cmd`, the
`hash` field equals the base64url-without-padding encoding of the 32-byte
blake2b digest of the exact string in the `cmd` field.  In the embedding,
as in the source, the command JSON is serialized exactly once and that one
string is hashed, signed and stored, never re-serialized. -/
theorem claim_C3 (pactCode pactId : String) (rollback : Bool) (step : Nat)
    (proof : Option String) (envData meta envData2 meta2 : Json)
    (networkId nonce networkId2 nonce2 : Option String)
    (keyPairs keyPairs2 : List KeyPair) (now now2 : String) :
    hashMatchesCmd (prepare_exec_cmd pactCode envData meta networkId nonce keyPairs now) ∧
    hashMatchesCmd (prepare_cont_cmd pactId rollback step proof envData2 meta2
      networkId2 nonce2 keyPairs2 now2) := by
  constructor
  · simp only [prepare_exec_cmd]
    exact hashMatchesCmd_pipeline _ _
  · simp only [prepare_cont_cmd]
    exact hashMatchesCmd_pipeline _ _

/-- Witness for C3 at concrete inputs. -/
theorem claim_C3_witness :
    hashMatchesCmd (prepare_exec_cmd "(+ 1 2)" (Json.obj []) (Json.obj []) none none [] "t") ∧
    hashMatchesCmd (prepare_cont_cmd "pid" false 1 (some "prf") (Json.obj []) (Json.obj [])
      none none [] "t") :=
  claim_C3 "(+ 1 2)" "pid" false 1 (some "prf") (Json.obj []) (Json.obj [])
    (Json.obj []) (Json.obj []) none none none none [] [] "t" "t"

/-- The property C10 asserts of the continuation envelope
`crosschain_complete` builds: `step` is fixed to 1, `rollback` fixed to
false, the command is a `cont` command, and the key pair is embedded with
its capability list replaced by exactly `[coin.GAS]`.  Runs that panic
(unsupported network id) have no output. -/
def contCmdFixed (kp : KeyPair) : Except Err Json → Prop
  | Except.ok out =>
      out.getField "step" = some (Json.num 1) ∧
      out.getField "rollback" = some (Json.bool false) ∧
      out.getField "type" = some (Json.str "cont") ∧
      out.getField "keyPairs" = some (Json.arr [Json.obj [
        ("publicKey", Json.str kp.public_key),
        ("secretKey", Json.str kp.secret_key),
        ("clist", Json.arr [capGas])]])
  | Except.error _ => True

/-- C10: for every invocation, `crosschain_complete` builds a continuation
command with `step` fixed to 1 and `rollback` fixed to false, and it
replaces the supplied key pair's capability list with exactly the single
`coin.GAS` capability — whatever capability list the caller attached to
`kp.clist` is discarded. -/
theorem claim_C10 (pactId proof receiver receiverPublicKey : String)
    (amount : Json) (kp : KeyPair) (targetChain networkId : String)
    (nowSec : Nat) (nowIso : String) :
    contCmdFixed kp (crosschain_complete_cmd pactId proof receiver receiverPublicKey
      amount kp targetChain networkId nowSec nowIso) := by
  unfold crosschain_complete_cmd
  cases h : get_api_host networkId targetChain with
  | error e => rw [error_bind]; trivial
  | ok host => rw [ok_bind]; exact ⟨rfl, rfl, rfl, rfl⟩

/-- Witness for C10 at concrete inputs, with a caller-supplied capability
list that the completion step discards. -/
theorem claim_C10_witness :
    contCmdFixed ⟨"pk", "sk", some [Json.str "callerCap"]⟩
      (crosschain_complete_cmd "pid" "prf" "r" "rpk" (Json.num 1)
        ⟨"pk", "sk", some [Json.str "callerCap"]⟩ "2" "testnet04" 1000 "t") :=
  claim_C10 "pid" "prf" "r" "rpk" (Json.num 1)
    ⟨"pk", "sk", some [Json.str "callerCap"]⟩ "2" "testnet04" 1000 "t"

/-! ## Lemmas about the SPV proof-retrieval loop -/

/-- Any proof the SPV loop returns came from the response of the attempt it
reports, is non-empty, and matches no not-ready sentinel. -/
theorem spv_ok_sound {resp : Nat → Json} {N T I : Nat} :
    ∀ {fuel a e p k}, poll_create_spv_go resp N T I fuel a e = SpvRes.ok p k →
      extract_proof (resp k) = some p ∧ spvNotReady p = false ∧ strIsEmpty p = false := by
  intro fuel
  induction fuel with
  | zero => intro a e p k h; cases h
  | succ f ih =>
    intro a e p k h
    simp only [poll_create_spv_go] at h
    split at h
    · cases h
    · split at h
      · next proof heq =>
        split at h
        · next hacc =>
          cases h
          simp only [Bool.and_eq_true, Bool.not_eq_true'] at hacc
          exact ⟨heq, hacc.1, hacc.2⟩
        · split at h
          · cases h
          · exact ih h
      · split at h
        · cases h
        · exact ih h

/-- A response stream on which every extracted proof is a not-ready
sentinel or empty. -/
def spvStuck (resp : Nat → Json) : Prop :=
  ∀ k p, extract_proof (resp k) = some p → spvNotReady p = true ∨ strIsEmpty p = true

theorem spv_exhaust {resp : Nat → Json} {N I : Nat} (hs : spvStuck resp)
    (hN : 0 < N) :
    ∀ f a, a < N → N - a ≤ f → ∀ e,
      poll_create_spv_go resp N 0 I f a e = SpvRes.errMax N := by
  intro f
  induction f with
  | zero => intro a ha hf e; omega
  | succ f ih =>
    intro a ha hf e
    have hcont : (if N > 0 ∧ a + 1 ≥ N then SpvRes.errMax (a + 1)
        else poll_create_spv_go resp N 0 I f (a + 1) (e + I)) = SpvRes.errMax N := by
      by_cases hmax : N > 0 ∧ a + 1 ≥ N
      · rw [if_pos hmax]
        have : a + 1 = N := by omega
        rw [this]
      · rw [if_neg hmax]
        exact ih (a + 1) (by omega) (by omega) (e + I)
    simp only [poll_create_spv_go]
    split
    · next hto => exact absurd hto (by omega)
    · split
      · next proof heq =>
        have hnr := hs (a + 1) proof heq
        have hacc : (!spvNotReady proof && !strIsEmpty proof) = false := by
          rcases hnr with hnr | hnr <;> simp [hnr]
        rw [hacc]
        simpa using hcont
      · exact hcont

theorem spv_unbounded {resp : Nat → Json} {I : Nat} (hs : spvStuck resp) :
    ∀ f a e, poll_create_spv_go resp 0 0 I f a e = SpvRes.outOfFuel := by
  intro f
  induction f with
  | zero => intro a e; rfl
  | succ f ih =>
    intro a e
    have hcont : (if 0 > 0 ∧ a + 1 ≥ 0 then SpvRes.errMax (a + 1)
        else poll_create_spv_go resp 0 0 I f (a + 1) (e + I)) = SpvRes.outOfFuel := by
      rw [if_neg (by omega)]
      exact ih (a + 1) (e + I)
    simp only [poll_create_spv_go]
    split
    · next hto => exact absurd hto (by omega)
    · split
      · next proof heq =>
        have hnr := hs (a + 1) proof heq
        have hacc : (!spvNotReady proof && !strIsEmpty proof) = false := by
          rcases hnr with hnr | hnr <;> simp [hnr]
        rw [hacc]
        simpa using hcont
      · exact hcont

/-- C5 counterexample: the claim treats any message containing whitespace
as a not-ready sentinel that forces another retry, but the code only tests
for the space character: a response containing a tab (which is whitespace)
is accepted and returned as the proof. -/
theorem claim_C5_counterexample :
    poll_create_spv_go (fun _ => Json.str "proof\tdata") 0 0 1000 1 0 0
      = SpvRes.ok "proof\tdata" 1 ∧
    "proof\tdata".toList.any Char.isWhitespace = true := by
  constructor
  · simp only [poll_create_spv_go]
    norm_num
    decide
  · decide

/-- C5 (amended): in `poll_create_spv`, a proof response is accepted
(returned as `Ok`) if and only if it is non-empty and does not match a
not-yet-available sentinel, where the sentinels are the network-unreachable
message, the hash-not-found message, and any message containing a space
character (not arbitrary whitespace); a sentinel response instead leads to
the attempt-budget check and another retry iteration. -/
theorem claim_C5 (resp : Nat → Json) (N T I fuel a e : Nat) (p : String) :
    (∀ k, poll_create_spv_go resp N T I fuel a e = SpvRes.ok p k →
      extract_proof (resp k) = some p ∧ strIsEmpty p = false ∧
      strContains p "SPV target not reachable" = false ∧
      strContains p "Transaction hash not found" = false ∧
      strContainsChar p ' ' = false) ∧
    (¬(T > 0 ∧ e ≥ T) → extract_proof (resp (a + 1)) = some p →
      spvNotReady p = false → strIsEmpty p = false →
      poll_create_spv_go resp N T I (fuel + 1) a e = SpvRes.ok p (a + 1)) ∧
    (¬(T > 0 ∧ e ≥ T) → extract_proof (resp (a + 1)) = some p →
      spvNotReady p = true →
      poll_create_spv_go resp N T I (fuel + 1) a e =
        (if N > 0 ∧ a + 1 ≥ N then SpvRes.errMax (a + 1)
         else poll_create_spv_go resp N T I fuel (a + 1) (e + I))) := by
  refine ⟨?_, ?_, ?_⟩
  · intro k h
    obtain ⟨hex, hnr, hne⟩ := spv_ok_sound h
    simp only [spvNotReady, Bool.or_eq_false_iff] at hnr
    exact ⟨hex, hne, hnr.1.1, hnr.1.2, hnr.2⟩
  · intro ht hex hnr hne
    simp only [poll_create_spv_go]
    rw [if_neg ht, hex]
    simp [hnr, hne]
  · intro ht hex hnr
    simp only [poll_create_spv_go]
    rw [if_neg ht, hex]
    simp [hnr]

/-- Witness for C5: a ready proof is accepted on the first attempt, and a
sentinel response (here the hash-not-found message) leads to the retry
branch. -/
theorem claim_C5_witness :
    poll_create_spv_go (fun _ => Json.str "proofdata") 0 0 1000 1 0 0
      = SpvRes.ok "proofdata" 1 ∧
    poll_create_spv_go (fun _ => Json.str "Transaction hash not found") 0 0 1000 1 0 0
      = (if (0 > 0 ∧ 0 + 1 ≥ 0 : Prop) then SpvRes.errMax (0 + 1)
         else poll_create_spv_go (fun _ => Json.str "Transaction hash not found") 0 0 1000 0 1 (0 + 1000)) := by
  constructor
  · exact (claim_C5 (fun _ => Json.str "proofdata") 0 0 1000 0 0 0 "proofdata").2.1
      (by decide) rfl (by decide) (by decide)
  · exact (claim_C5 (fun _ => Json.str "Transaction hash not found") 0 0 1000 0 0 0
      "Transaction hash not found").2.2 (by decide) rfl (by decide)

/-- C6: with every SPV response a not-ready sentinel and no global timeout
configured (the env var unset, hence 0), a positive attempt budget `N`
makes `poll_create_spv` perform exactly `N` proof fetches — the returned
attempt counter — and then fail with the max-attempts error, for any
sufficient fuel (never more than `N` attempts); a zero budget never
triggers the attempt-exhaustion exit, so the loop runs unbounded (it
consumes any finite fuel without returning). -/
theorem claim_C6 (resp : Nat → Json) (N I fuel : Nat) (hs : spvStuck resp)
    (hN : 0 < N) (hf : N ≤ fuel) :
    poll_create_spv_go resp N 0 I fuel 0 0 = SpvRes.errMax N ∧
    ∀ f a e, poll_create_spv_go resp 0 0 I f a e = SpvRes.outOfFuel :=
  ⟨spv_exhaust hs hN fuel 0 hN (by omega) 0, spv_unbounded hs⟩

/-- Witness for C6: three attempts with the network-unreachable sentinel
exhaust a budget of three. -/
theorem claim_C6_witness :
    poll_create_spv_go (fun _ => Json.str "SPV target not reachable") 3 0 1000 5 0 0
      = SpvRes.errMax 3 :=
  (claim_C6 (fun _ => Json.str "SPV target not reachable") 3 1000 5
    (fun k p hp => by cases hp; left; decide) (by decide) (by decide)).1

/-! ## Lemmas about the orchestrator's stage polling loops -/

/-- Whether a loop outcome is the transfer-wide-timeout exit. -/
def LoopRes.isTimeoutErr : LoopRes → Bool
  | LoopRes.errTimeout _ => true
  | _ => false

/-- The number of poll attempts an outcome reports. -/
def LoopRes.attempts : LoopRes → Nat
  | LoopRes.found _ a => a
  | LoopRes.errTimeout a => a
  | LoopRes.errMax a => a
  | LoopRes.outOfFuel => 0

/-- Under the discrete clock (instantaneous polls, one `intervalMs` sleep
per retry), a stage loop whose polls never succeed and whose transfer-wide
timeout is positive and at most `(attempts − 1) · interval` exits with the
timeout error, within the attempt budget. -/
theorem pollLoop_timeout_first {respAt : Nat → Json} {isDone : Json → Bool}
    {N I T : Nat} (hs : ∀ k, isDone (respAt k) = false)
    (hT : 0 < T) (hTI : T ≤ (N - 1) * I) :
    ∀ f a, a < N → N - a ≤ f →
      (pollStageLoop respAt isDone N I T f a (a * I)).isTimeoutErr = true ∧
      (pollStageLoop respAt isDone N I T f a (a * I)).attempts ≤ N := by
  intro f
  induction f with
  | zero => intro a ha hf; omega
  | succ f ih =>
    intro a ha hf
    simp only [pollStageLoop]
    by_cases hto : T ≠ 0 ∧ a * I ≥ T
    · rw [if_pos hto]
      exact ⟨rfl, by simp [LoopRes.attempts]; omega⟩
    · rw [if_neg hto]
      have haI : a * I < T := by
        rcases Decidable.not_and_iff_or_not.mp hto with h | h
        · omega
        · omega
      have hI : 0 < I := by
        rcases Nat.eq_zero_or_pos I with h0 | h0
        · subst h0; omega
        · exact h0
      have haN : a < N - 1 := by
        have := Nat.lt_of_mul_lt_mul_right (Nat.lt_of_lt_of_le haI hTI)
        exact this
      rw [hs (a + 1)]
      simp only [Bool.false_eq_true, if_false]
      rw [if_neg (by omega)]
      have := ih (a + 1) (by omega) (by omega)
      rw [show a * I + I = (a + 1) * I by ring]
      exact this

/-- C7 counterexample: with an attempt budget of 2, an interval of 1000 ms
and a transfer-wide timeout of 1500 ms — positive and smaller than
attempts × interval = 2000 ms — the stage loop (polls never succeeding,
polls instantaneous) exhausts its attempt budget on the second iteration
without the timeout ever firing, contradicting the claim that the stage
fails with the timeout diagnostic first. -/
theorem claim_C7_counterexample :
    pollStageLoop (fun _ => Json.null) (fun _ => false) 2 1000 1500 10 0 0
      = LoopRes.errMax 2 ∧ 0 < 1500 ∧ 1500 < 2 * 1000 :=
  ⟨rfl, by norm_num, by norm_num⟩

/-- C7 (amended): under the discrete-time model (network calls
instantaneous, each sleep advancing the shared clock by the stage
interval), when the transfer-wide timeout is positive and at most
`(attempts − 1) · interval`, a stage loop of `crosschain_transfer_full`
whose polls never succeed fails with the timeout error without exhausting
its attempt budget.  Moreover, on every iteration of the initiation and
final polling loops both exhaustion conditions are checked — the
transfer-wide timeout (measured from the start of the whole transfer)
before the poll and the attempt budget after it — while the SPV loop
checks, each iteration, a timeout of its own, read from the
`XCHAIN_MAX_TOTAL_TIME_MS` environment variable and measured from the
start of SPV polling only, followed by its attempt budget. -/
theorem claim_C7 (respAt : Nat → Json) (isDone : Json → Bool)
    (N I T fuel : Nat) (hs : ∀ k, isDone (respAt k) = false)
    (hT : 0 < T) (hTI : T ≤ (N - 1) * I) (hf : N ≤ fuel) :
    ((pollStageLoop respAt isDone N I T fuel 0 0).isTimeoutErr = true ∧
     (pollStageLoop respAt isDone N I T fuel 0 0).attempts ≤ N) ∧
    (∀ f a e, (T ≠ 0 ∧ e ≥ T) →
      pollStageLoop respAt isDone N I T (f + 1) a e = LoopRes.errTimeout (a + 1)) ∧
    (∀ f a e, ¬(T ≠ 0 ∧ e ≥ T) → N > 0 → a + 1 ≥ N →
      pollStageLoop respAt isDone N I T (f + 1) a e = LoopRes.errMax (a + 1)) ∧
    (∀ (resp : Nat → Json) (Ns Ts Is f a e : Nat), Ts > 0 ∧ e ≥ Ts →
      poll_create_spv_go resp Ns Ts Is (f + 1) a e = SpvRes.errTimeout (a + 1)) ∧
    (∀ (resp : Nat → Json) (Ns Is f a e : Nat) (p : String),
      ¬(0 > 0 ∧ e ≥ 0) → extract_proof (resp (a + 1)) = some p →
      spvNotReady p = true → Ns > 0 → a + 1 ≥ Ns →
      poll_create_spv_go resp Ns 0 Is (f + 1) a e = SpvRes.errMax (a + 1)) := by
  have hN : 0 < N := by
    rcases Nat.eq_zero_or_pos N with h0 | h0
    · subst h0; simp at hTI; omega
    · exact h0
  refine ⟨?_, ?_, ?_, ?_, ?_⟩
  · have := pollLoop_timeout_first hs hT hTI fuel 0 hN (by omega)
    simpa using this
  · intro f a e hto
    simp only [pollStageLoop]
    rw [if_pos hto]
  · intro f a e hto hNpos hge
    simp only [pollStageLoop]
    rw [if_neg hto, hs (a + 1)]
    simp only [Bool.false_eq_true, if_false]
    rw [if_pos ⟨hNpos, hge⟩]
  · intro resp Ns Ts Is f a e hto
    simp only [poll_create_spv_go]
    rw [if_pos hto]
  · intro resp Ns Is f a e p hto hex hnr hNs hge
    simp only [poll_create_spv_go]
    rw [if_neg hto, hex]
    simp [hnr, hNs, hge]

/-- Witness for C7: budget 3, interval 1000 ms, timeout 2000 ms
(= (3 − 1) · 1000): the loop times out on its third iteration. -/
theorem claim_C7_witness :
    (pollStageLoop (fun _ => Json.null) (fun _ => false) 3 1000 2000 5 0 0).isTimeoutErr
      = true ∧
    (pollStageLoop (fun _ => Json.null) (fun _ => false) 3 1000 2000 5 0 0).attempts ≤ 3 :=
  (claim_C7 (fun _ => Json.null) (fun _ => false) 3 1000 2000 5 (fun _ => rfl)
    (by norm_num) (by norm_num) (by norm_num)).1

/-! ## Lemmas for the full orchestrator -/

theorem get_api_host_ok {networkId : String}
    (hnet : networkId = "mainnet01" ∨ networkId = "testnet04") (chainId : String) :
    ∃ h, get_api_host networkId chainId = Except.ok h := by
  rcases hnet with rfl | rfl
  · exact ⟨_, rfl⟩
  · exact ⟨_, rfl⟩

theorem xchainCode_ok {token : String}
    (htok : token = "coin" ∨ (token.splitOn ".").length = 2)
    (sender receiver targetChain : String) (amount : Json) :
    ∃ c, xchainCode token sender receiver targetChain amount = Except.ok c := by
  unfold xchainCode
  by_cases hc : token = "coin"
  · rw [if_neg (by simp [hc])]
    exact ⟨_, rfl⟩
  · rcases htok with h | h
    · exact absurd h hc
    · rw [if_pos hc, if_neg (by simp [h])]
      exact ⟨_, rfl⟩

/-- The `sigs` list a successful preparation produces. -/
def preparedSigs (cmd : String) (kps : List KeyPair) : List (Option String) :=
  (((kps.map fun k => KPJson.mk (some k.public_key) (some k.secret_key)).map
    (signEntryOk cmd)).filter filter_sig).map fun e => e.sig.getD none

theorem pipeline_ok_of_valid {cmd : String} {kps : List KeyPair}
    (hne : kps ≠ []) (hv : ∀ k ∈ kps, ValidSecret k.secret_key = true) :
    (attach_sig cmd (kps.map fun kp => KPJson.mk (some kp.public_key) (some kp.secret_key)) >>=
      fun sigs => mk_single_cmd sigs cmd) =
    Except.ok ⟨b64_url_encoded_hash (hash_bin cmd), preparedSigs cmd kps, cmd⟩ := by
  have hne2 : (kps.map fun kp => KPJson.mk (some kp.public_key) (some kp.secret_key)) ≠ [] := by
    simpa using hne
  have hok : ∀ kp ∈ (kps.map fun kp => KPJson.mk (some kp.public_key) (some kp.secret_key)),
      secretOk kp = true := by
    intro kpj hkpj
    obtain ⟨k, hk, rfl⟩ := List.mem_map.mp hkpj
    simpa [secretOk] using hv k hk
  have hatt : attach_sig cmd (kps.map fun kp => KPJson.mk (some kp.public_key) (some kp.secret_key))
      = Except.ok ((kps.map fun kp => KPJson.mk (some kp.public_key) (some kp.secret_key)).map
        (signEntryOk cmd)) := attach_sig_all_valid hne2 hok
  rw [hatt, ok_bind]
  obtain ⟨hne3, hall⟩ := attach_sig_shape hatt
  exact mk_single_cmd_ok hne3 (fun e he => (hall e he).1) cmd

theorem prepare_exec_eq (pactCode : String) (ed m : Json) (nid n : Option String)
    (kps : List KeyPair) (now : String) (hne : kps ≠ [])
    (hv : ∀ k ∈ kps, ValidSecret k.secret_key = true) :
    prepare_exec_cmd pactCode ed m nid n kps now = Except.ok
      ⟨b64_url_encoded_hash (hash_bin ((exec_cmd_json pactCode ed m nid n kps now).render)),
       preparedSigs ((exec_cmd_json pactCode ed m nid n kps now).render) kps,
       (exec_cmd_json pactCode ed m nid n kps now).render⟩ := by
  simp only [prepare_exec_cmd]
  exact pipeline_ok_of_valid hne hv

theorem prepare_cont_eq (pactId : String) (rollback : Bool) (step : Nat)
    (proof : Option String) (ed m : Json) (nid n : Option String)
    (kps : List KeyPair) (now : String) (hne : kps ≠ [])
    (hv : ∀ k ∈ kps, ValidSecret k.secret_key = true) :
    prepare_cont_cmd pactId rollback step proof ed m nid n kps now = Except.ok
      ⟨b64_url_encoded_hash (hash_bin ((cont_cmd_json pactId rollback step proof ed m nid n kps now).render)),
       preparedSigs ((cont_cmd_json pactId rollback step proof ed m nid n kps now).render) kps,
       (cont_cmd_json pactId rollback step proof ed m nid n kps now).render⟩ := by
  simp only [prepare_cont_cmd]
  exact pipeline_ok_of_valid hne hv

/-- `make_prepare_cmd` on the initiation envelope dispatches to
`prepare_exec_cmd` with the envelope's fields. -/
theorem make_prepare_cmd_exec (now code : String) (ed m : Json)
    (nid n pk sk : String) (cl : List Json) :
    make_prepare_cmd now (Json.obj [
      ("pactCode", Json.str code),
      ("envData", ed),
      ("meta", m),
      ("networkId", Json.str nid),
      ("nonce", Json.str n),
      ("keyPairs", Json.arr [kpToJson ⟨pk, sk, some cl⟩])]) =
    prepare_exec_cmd code ed m (some nid) (some n) [⟨pk, sk, some cl⟩] now := rfl

/-- `make_prepare_cmd` on the completion envelope dispatches to
`prepare_cont_cmd` with the envelope's fields. -/
theorem make_prepare_cmd_cont (now pid prf : String) (ed m : Json)
    (nid n pk sk : String) (cl : List Json) :
    make_prepare_cmd now (Json.obj [
      ("type", Json.str "cont"),
      ("pactId", Json.str pid),
      ("rollback", Json.bool false),
      ("step", Json.num 1),
      ("proof", Json.str prf),
      ("envData", ed),
      ("meta", m),
      ("networkId", Json.str nid),
      ("nonce", Json.str n),
      ("keyPairs", Json.arr [kpToJson ⟨pk, sk, some cl⟩])]) =
    prepare_cont_cmd pid false 1 (some prf) ed m (some nid) (some n) [⟨pk, sk, some cl⟩] now := rfl

/-- The failure discipline C8 asserts of a returned artifacts object:
the initiation submission's response is always recorded; when no error is
recorded the transfer succeeded with the final artifacts present; and
artifact presence is downward closed along the stage order, so everything
collected before a failure is still in the returned object. -/
def ArtifactsInv (a : Artifacts) : Prop :=
  a.init_result.isSome = true ∧
  (a.error = none → a.status = "success" ∧ a.final_status = some "success" ∧
    a.final_poll_result.isSome = true) ∧
  (a.status = "success" → a.error = none) ∧
  (a.init_listen_result.isSome = true → a.request_key_init.isSome = true) ∧
  (a.pact_id.isSome = true → a.init_listen_result.isSome = true) ∧
  (a.init_status.isSome = true → a.pact_id.isSome = true) ∧
  (a.spv_proof.isSome = true → a.init_status.isSome = true) ∧
  (a.complete_result.isSome = true → a.spv_proof.isSome = true) ∧
  (a.request_key_complete.isSome = true → a.complete_result.isSome = true) ∧
  (a.final_poll_result.isSome = true → a.request_key_complete.isSome = true) ∧
  (a.final_status.isSome = true → a.request_key_complete.isSome = true)

/-- C8's property of a whole run: it is not a Rust panic, and a terminated
run's artifacts satisfy the failure discipline (a fuel-exhausted unrolling
asserts nothing). -/
def RunInv : RunResult → Prop
  | RunResult.panic _ => False
  | RunResult.outOfFuel => True
  | RunResult.done a => ArtifactsInv a

/-- C8 counterexample: the claim says the caller always receives partial
state with an error marker and never a bare panic, at whatever stage the
failure occurs; but an unsupported network id makes `get_api_host` panic
inside the very first stage, so the orchestrator returns nothing at all. -/
theorem claim_C8_counterexample :
    crosschain_transfer_full
      ⟨fun _ => Json.null, fun _ _ => Json.null, fun _ => Json.null, fun _ _ => Json.null⟩
      "coin" "s" "r" "rpk" (Json.num 1) ⟨"", "", none⟩ "1" "2" "devnet"
      ⟨30, 5000, 10000, 0, 5000, 30, 5000, false, 360000⟩ 0 1000 "t" 5
      = RunResult.panic Err.unsupportedNetwork := rfl

/-- C8 (amended): for a supported network id, a well-formed token address
and a key pair with a valid secret key, `crosschain_transfer_full` never
panics: whenever it terminates it returns the artifacts object, which
always carries the initiation response, carries an explicit error
diagnostic unless the transfer succeeded (and reports success only without
an error), and retains every artifact collected before the failing stage
(artifact presence is downward closed along the stage order).  The final
poll response is recorded only on the success path. -/
theorem claim_C8 (net : Network) (token sender receiver recvPk : String)
    (amount : Json) (kp : KeyPair) (srcChain tgtChain networkId : String)
    (cfg : CrossChainConfig) (spvEnvMaxMs nowSec : Nat) (nowIso : String) (fuel : Nat)
    (hnet : networkId = "mainnet01" ∨ networkId = "testnet04")
    (htok : token = "coin" ∨ (token.splitOn ".").length = 2)
    (hkey : ValidSecret kp.secret_key = true) :
    RunInv (crosschain_transfer_full net token sender receiver recvPk amount kp
      srcChain tgtChain networkId cfg spvEnvMaxMs nowSec nowIso fuel) := by
  obtain ⟨host1, hhost1⟩ := get_api_host_ok hnet srcChain
  obtain ⟨host2, hhost2⟩ := get_api_host_ok hnet tgtChain
  obtain ⟨code, hcode⟩ := xchainCode_ok htok sender receiver tgtChain amount
  simp only [crosschain_transfer_full]
  split
  · next e heq =>
    simp only [crosschain_transfer_cmd, hhost1, hcode, ok_bind] at heq
    cases heq
  · next env heq =>
    simp only [crosschain_transfer_cmd, hhost1, hcode, ok_bind, Except.ok.injEq] at heq
    subst heq
    rw [make_prepare_cmd_exec,
      prepare_exec_eq _ _ _ _ _ _ _ (by simp)
        (fun k hk => by rcases List.mem_singleton.mp hk with rfl; exact hkey)]
    split
    · next e heq2 => cases heq2
    · next prepared heq2 =>
      clear heq2
      split
      · -- no request key from initiation
        (simp [RunInv, ArtifactsInv]; all_goals decide)
      · next rk hrk =>
        split
        · -- init poll loop: out of fuel
          simp [RunInv]
        · -- init poll loop: timeout
          (simp [RunInv, ArtifactsInv]; all_goals decide)
        · -- init poll loop: max attempts
          (simp [RunInv, ArtifactsInv]; all_goals decide)
        · next res k1 hloop =>
          split
          · -- missing pactId
            (simp [RunInv, ArtifactsInv]; all_goals decide)
          · next pactId hpid =>
            split
            · -- missing status
              (simp [RunInv, ArtifactsInv]; all_goals decide)
            · next status hst =>
              split
              · -- SPV: out of fuel
                simp [RunInv]
              · -- SPV: timeout
                (simp [RunInv, ArtifactsInv]; all_goals decide)
              · -- SPV: max attempts
                (simp [RunInv, ArtifactsInv]; all_goals decide)
              · next proof k2 hspv =>
                split
                · next e heq3 =>
                  simp only [crosschain_complete_cmd, hhost2, ok_bind] at heq3
                  cases heq3
                · next env2 heq3 =>
                  simp only [crosschain_complete_cmd, hhost2, ok_bind,
                    Except.ok.injEq] at heq3
                  subst heq3
                  rw [make_prepare_cmd_cont,
                    prepare_cont_eq _ _ _ _ _ _ _ _ _ _ (by simp)
                      (fun k hk => by rcases List.mem_singleton.mp hk with rfl; exact hkey)]
                  split
                  · next e heq4 => cases heq4
                  · next prepared2 heq4 =>
                    clear heq4
                    split
                    · -- no request key from completion
                      (simp [RunInv, ArtifactsInv]; all_goals decide)
                    · next rkC hrkC =>
                      split
                      · -- final poll loop: out of fuel
                        simp [RunInv]
                      · -- final poll loop: timeout
                        (simp [RunInv, ArtifactsInv]; all_goals decide)
                      · -- final poll loop: max attempts
                        (simp [RunInv, ArtifactsInv]; all_goals decide)
                      · next finalRes kf hfinal =>
                        split
                        · -- final result not found in poll response
                          (simp [RunInv, ArtifactsInv]; all_goals decide)
                        · next result hres =>
                          split
                          · -- non-success, non-benign final status
                            (simp [RunInv, ArtifactsInv]; all_goals decide)
                          · -- success
                            (simp [RunInv, ArtifactsInv]; all_goals decide)

set_option maxRecDepth 100000 in
/-- Witness for C8: a run on testnet with an all-`null` transport fails at
the first stage (no request key) and returns artifacts satisfying the
failure discipline. -/
theorem claim_C8_witness :
    RunInv (crosschain_transfer_full
      ⟨fun _ => Json.null, fun _ _ => Json.null, fun _ => Json.null, fun _ _ => Json.null⟩
      "coin" "s" "r" "rpk" (Json.num 1)
      ⟨"aa", "0000000000000000000000000000000000000000000000000000000000000000", none⟩
      "1" "2" "testnet04" ⟨30, 5000, 10000, 0, 5000, 30, 5000, false, 360000⟩
      0 1000 "t" 5) :=
  claim_C8
    ⟨fun _ => Json.null, fun _ _ => Json.null, fun _ => Json.null, fun _ _ => Json.null⟩
    "coin" "s" "r" "rpk" (Json.num 1)
    ⟨"aa", "0000000000000000000000000000000000000000000000000000000000000000", none⟩
    "1" "2" "testnet04" ⟨30, 5000, 10000, 0, 5000, 30, 5000, false, 360000⟩
    0 1000 "t" 5 (Or.inr rfl) (Or.inl rfl) (by decide)

end RustPact
